import Mathlib

/-!
Shallow embedding of the logon-event listener of the Hosho repository
(`src/listener/logon.rs`), together with proofs of the specified
properties of its normalization pipeline.

Modelling conventions:
* Machine integers: Rust `isize` is a signed 64-bit integer on the
  supported targets; it is embedded as `Int` with an explicit range
  check in `parseIsize`.  The `u32` record id carries no arithmetic and
  is embedded as `Nat`.
* UTC instants are embedded as `Int` (nanoseconds since the epoch).
* The two third-party parsers called by `parse_login_event` — the XML
  deserializer (`serde_xml_rs::from_str`) and the RFC 3339 date parser
  (`chrono::DateTime::parse_from_rfc3339`) — are not code of this
  repository; they are abstracted as explicit function parameters
  `decode : String → Option SecurityEvent` and
  `pts : String → Option Int`.  `.with_timezone(&Utc)` preserves the
  instant, so it is the identity in this embedding.
-/

/-- The logon-type classification of `logon.rs` (`enum LogonVariant`):
eleven named Windows logon-type codes plus the two escape variants
`Unknown` (numeric code outside the known set) and `Invalid`
(non-numeric raw text). -/
inductive LogonVariant where
  | Interactive
  | Network
  | Batch
  | Service
  | Unlock
  | NetworkCleartext
  | NewCredentials
  | RemoteInteractive
  | CachedInteractive
  | CachedRemoteInteractive
  | CachedUnlock
  | Unknown (code : Int)
  | Invalid (raw : String)
  deriving DecidableEq

/-- Integer parsing as performed by `str::parse::<isize>()` in the Rust
standard library: an optional leading sign character followed by one or
more ASCII digits, rejecting the empty digit string, any other
character, and any value outside the signed 64-bit range. -/
def parseIsize (s : String) : Option Int :=
  let signDigits : Int × List Char :=
    match s.data with
    | '+' :: rest => (1, rest)
    | '-' :: rest => (-1, rest)
    | cs => (1, cs)
  let sign := signDigits.1
  let digits := signDigits.2
  if digits = [] then none
  else if digits.all (fun c => c.isDigit) then
    let mag : Nat := digits.foldl (fun acc c => acc * 10 + (c.toNat - 48)) 0
    let v : Int := sign * mag
    if -(2 ^ 63) ≤ v ∧ v ≤ 2 ^ 63 - 1 then some v else none
  else none

/-- The inner `match num` of `LogonVariant::from_string`: the fixed
table from known numeric codes to named variants, any other integer
falling through to `Unknown`. -/
def LogonVariant.ofCode (num : Int) : LogonVariant :=
  if num = 2 then LogonVariant.Interactive
  else if num = 3 then LogonVariant.Network
  else if num = 4 then LogonVariant.Batch
  else if num = 5 then LogonVariant.Service
  else if num = 7 then LogonVariant.Unlock
  else if num = 8 then LogonVariant.NetworkCleartext
  else if num = 9 then LogonVariant.NewCredentials
  else if num = 10 then LogonVariant.RemoteInteractive
  else if num = 11 then LogonVariant.CachedInteractive
  else if num = 12 then LogonVariant.CachedRemoteInteractive
  else if num = 13 then LogonVariant.CachedUnlock
  else LogonVariant.Unknown num

/-- `LogonVariant::from_string`: parse the string as a signed machine
integer; on success map through the code table, on failure return
`Invalid` carrying the raw string. -/
def LogonVariant.from_string (s : String) : LogonVariant :=
  match parseIsize s with
  | some num => LogonVariant.ofCode num
  | none => LogonVariant.Invalid s

/-- `LogonVariant::as_number`: the numeric projection of a variant;
`Invalid` is collapsed to `-1`. -/
def LogonVariant.as_number : LogonVariant → Int
  | LogonVariant.Interactive => 2
  | LogonVariant.Network => 3
  | LogonVariant.Batch => 4
  | LogonVariant.Service => 5
  | LogonVariant.Unlock => 7
  | LogonVariant.NetworkCleartext => 8
  | LogonVariant.NewCredentials => 9
  | LogonVariant.RemoteInteractive => 10
  | LogonVariant.CachedInteractive => 11
  | LogonVariant.CachedRemoteInteractive => 12
  | LogonVariant.CachedUnlock => 13
  | LogonVariant.Unknown num => num
  | LogonVariant.Invalid _ => -1

/-- One `<Data Name=...>value</Data>` element of the event payload
(struct `DataField` in `logon.rs`). -/
structure DataField where
  name : String
  value : String
  deriving DecidableEq

/-- The `TimeCreated` element of the system metadata (attribute
`SystemTime`). -/
structure TimeCreated where
  system_time : String
  deriving DecidableEq

/-- The `<System>` metadata block parsed from the event XML: creation
time and the `u32` record identifier (struct `System` in
`logon.rs`). -/
structure SystemBlock where
  time_created : TimeCreated
  event_record_id : Nat
  deriving DecidableEq

/-- The `<EventData>` block: the ordered list of named data fields. -/
structure EventData where
  data : List DataField
  deriving DecidableEq

/-- The decoded shape of one Windows Security event (struct
`SecurityEvent` in `logon.rs`). -/
structure SecurityEvent where
  system : SystemBlock
  event_data : EventData
  deriving DecidableEq

/-- The normalized domain entity (`struct LogonEvent`). -/
structure LogonEvent where
  username : String
  source_ip : String
  variant : LogonVariant
  event_record_id : Nat
  deriving DecidableEq

/-- Classification of the two per-record failure modes of
`parse_login_event`: the `map_err` on the XML deserialization and the
`map_err` on the timestamp parse. -/
inductive ParseError where
  | xml
  | timestamp
  deriving DecidableEq

/-- One step of the field-scanning `for` loop of `parse_login_event`:
the four mutable `Option` locals, each overwritten whenever a data
field with the matching name is seen. -/
structure ExtractedFields where
  target_username : Option String
  target_domain : Option String
  logon_type : Option String
  ip_address : Option String
  deriving DecidableEq

/-- The body of the `match data_field.name.as_str()` statement: set the
local corresponding to the field name, ignore every other name. -/
def updateField (acc : ExtractedFields) (f : DataField) : ExtractedFields :=
  if f.name = "TargetUserName" then { acc with target_username := some f.value }
  else if f.name = "TargetDomainName" then { acc with target_domain := some f.value }
  else if f.name = "LogonType" then { acc with logon_type := some f.value }
  else if f.name = "IpAddress" then { acc with ip_address := some f.value }
  else acc

/-- The field-scanning loop: fold `updateField` over the data fields in
document order, starting from four empty locals. -/
def extractFields (data : List DataField) : ExtractedFields :=
  data.foldl updateField ⟨none, none, none, none⟩

/-- The username derivation of `parse_login_event`: when both user and
domain are present and the domain is neither empty nor the sentinel
`"-"`, format `user@domain`; with no usable domain the bare user; with
no user the placeholder `"Unknown"`. -/
def deriveUsername : Option String → Option String → String
  | some user, some domain =>
      if domain = "" ∨ domain = "-" then user else user ++ "@" ++ domain
  | some user, none => user
  | none, _ => "Unknown"

/-- The logon-variant derivation of `parse_login_event`: classify the
`LogonType` field when present, otherwise `Invalid("N/A")`. -/
def variantFrom : Option String → LogonVariant
  | some s => LogonVariant.from_string s
  | none => LogonVariant.Invalid "N/A"

/-- The record-level part of `parse_login_event` (everything after the
XML deserialization): parse the creation time — failure is fatal for
the record — then derive username, source ip and variant from the
scanned fields and return the normalized event. -/
def parse_record (pts : String → Option Int) (event : SecurityEvent) :
    Except ParseError (Int × LogonEvent) :=
  match pts event.system.time_created.system_time with
  | none => Except.error ParseError.timestamp
  | some timestamp =>
      let fields := extractFields event.event_data.data
      Except.ok (timestamp,
        { username := deriveUsername fields.target_username fields.target_domain
          source_ip := fields.ip_address.getD "N/A"
          variant := variantFrom fields.logon_type
          event_record_id := event.system.event_record_id })

/-- `LogonExtractor::parse_login_event`: deserialize the XML — failure
is classified as the XML parse error — then normalize the decoded
record. -/
def parse_login_event (decode : String → Option SecurityEvent)
    (pts : String → Option Int) (xml : String) :
    Except ParseError (Int × LogonEvent) :=
  match decode xml with
  | none => Except.error ParseError.xml
  | some event => parse_record pts event

/-- The event-kind enumeration of `listener/mod.rs`
(`enum EventDetails`). -/
inductive ActivityType where
  | Mouse
  | Keyboard
  | Device
  deriving DecidableEq

/-- `struct ActivityEvent` of `listener/mod.rs`. -/
structure ActivityEvent where
  activity_type : ActivityType
  deriving DecidableEq

/-- The details carried by an envelope event (`enum EventDetails`);
`Wake` carries the empty `WakeEvent` payload. -/
inductive EventDetails where
  | Login (e : LogonEvent)
  | Wake
  | Activity (a : ActivityEvent)
  deriving DecidableEq

/-- The envelope type (`struct Event` of `listener/mod.rs`): details
plus the UTC creation instant. -/
structure Event where
  details : EventDetails
  timestamp : Int
  deriving DecidableEq

/-- The batch loop of `LogonExtractor::get_events`: walk the returned
raw records in order; a record that normalizes is pushed onto the
accumulator, a record that fails is logged and skipped. -/
def pushEvents (decode : String → Option SecurityEvent)
    (pts : String → Option Int) :
    List String → List Event → List Event
  | [], login_events => login_events
  | xml :: rest, login_events =>
      match parse_login_event decode pts xml with
      | Except.ok (timestamp, login_event) =>
          pushEvents decode pts rest
            (login_events ++ [{ details := EventDetails.Login login_event
                                timestamp := timestamp }])
      | Except.error _ => pushEvents decode pts rest login_events

/-- `LogonExtractor::get_events`: propagate a query failure, otherwise
run the batch loop over the returned records and return the collected
events. -/
def get_events (decode : String → Option SecurityEvent)
    (pts : String → Option Int)
    (queryResult : Except String (List String)) :
    Except String (List Event) :=
  match queryResult with
  | Except.error e => Except.error e
  | Except.ok events => Except.ok (pushEvents decode pts events [])

/-- The normalized event produced for one raw record, when
normalization succeeds. -/
def normalizeOk (decode : String → Option SecurityEvent)
    (pts : String → Option Int) (xml : String) : Option Event :=
  match parse_login_event decode pts xml with
  | Except.ok (timestamp, login_event) =>
      some { details := EventDetails.Login login_event, timestamp := timestamp }
  | Except.error _ => none

/-- The normalized `LogonEvent` of a successful record parse. -/
def okEvent : Except ParseError (Int × LogonEvent) → Option LogonEvent
  | Except.ok p => some p.2
  | Except.error _ => none

/-- The creation instant of a successful record parse. -/
def okTime : Except ParseError (Int × LogonEvent) → Option Int
  | Except.ok p => some p.1
  | Except.error _ => none

/-- The username of a successful record parse. -/
def okUsername (r : Except ParseError (Int × LogonEvent)) : Option String :=
  (okEvent r).map LogonEvent.username

/-- The source ip of a successful record parse. -/
def okSourceIp (r : Except ParseError (Int × LogonEvent)) : Option String :=
  (okEvent r).map LogonEvent.source_ip

/-- The values of the data fields named `name`, in document order. -/
def occurrences (name : String) (data : List DataField) : List String :=
  data.filterMap (fun f => if f.name = name then some f.value else none)

/-- The integer codes recognized by the classification table. -/
def knownLogonCodes : List Int := [2, 3, 4, 5, 7, 8, 9, 10, 11, 12, 13]

/-- The RFC 3339 creation-time literal exercised by the repository's
tests. -/
def rfc3339Lit : String := "2025-07-22T16:25:08.8954670Z"

/-- The UTC instant denoted by `rfc3339Lit`, in nanoseconds since the
epoch (`1753201508` seconds plus `895467000` nanoseconds). -/
def litInstant : Int := 1753201508895467000

/-- An instant parser defined at exactly the test literal, for concrete
evaluations. -/
def ptsLit : String → Option Int :=
  fun s => if s = rfc3339Lit then some litInstant else none

/-- A concrete record carrying both a user and a domain field. -/
def recordUserAndDomain : SecurityEvent :=
  { system := { time_created := { system_time := rfc3339Lit }
                event_record_id := 8485950 }
    event_data := { data := [ { name := "TargetUserName", value := "SYSTEM" },
                              { name := "TargetDomainName", value := "NT AUTHORITY" } ] } }

/-- A concrete record carrying only a user field. -/
def recordUserOnly : SecurityEvent :=
  { system := { time_created := { system_time := rfc3339Lit }
                event_record_id := 1 }
    event_data := { data := [ { name := "TargetUserName", value := "TESTUSER" } ] } }

/-- A concrete record whose only data field is the ip sentinel
`"-"`. -/
def recordIpSentinel : SecurityEvent :=
  { system := { time_created := { system_time := rfc3339Lit }
                event_record_id := 2 }
    event_data := { data := [ { name := "IpAddress", value := "-" } ] } }

set_option maxHeartbeats 1000000 in
/-- In the code table, any integer outside the known code set falls
through to `Unknown`. -/
theorem ofCode_unknown (n : Int) (hn : n ∉ knownLogonCodes) :
    LogonVariant.ofCode n = LogonVariant.Unknown n := by
  unfold LogonVariant.ofCode
  split_ifs with h h h h h h h h h h h
  all_goals
    first
      | rfl
      | exact absurd (by simp [knownLogonCodes, h]) hn

set_option maxHeartbeats 1000000 in
/-- The numeric projection is a left inverse of the code table. -/
theorem ofCode_as_number (n : Int) :
    (LogonVariant.ofCode n).as_number = n := by
  unfold LogonVariant.ofCode
  split_ifs with h h h h h h h h h h h
  all_goals first | (subst h; rfl) | rfl

/-- One scanning step, seen through a single field projection `g`
bound to the field name `name`: the projection is overwritten exactly
when the scanned data field has that name. -/
theorem foldl_updateField (g : ExtractedFields → Option String) (name : String)
    (hg : ∀ acc f, g (updateField acc f) =
      if f.name = name then some f.value else g acc)
    (data : List DataField) (acc : ExtractedFields) :
    g (data.foldl updateField acc) =
      data.foldl (fun a f => if f.name = name then some f.value else a) (g acc) := by
  induction data generalizing acc with
  | nil => rfl
  | cons f rest ih => simp only [List.foldl_cons, ih, hg]

/-- Scanning with last-one-wins overwriting computes the last
occurrence in document order, falling back to the initial value. -/
theorem foldl_lastValue (name : String) (data : List DataField) (a : Option String) :
    data.foldl (fun acc f => if f.name = name then some f.value else acc) a =
      ((occurrences name data).getLast?).or a := by
  induction data using List.reverseRecOn with
  | nil => rfl
  | append_singleton l f ih =>
      by_cases hf : f.name = name
      · simp [occurrences, List.filterMap_append, hf, List.foldl_append,
          List.getLast?_concat, Option.or]
      · simp only [occurrences, List.filterMap_append, List.foldl_append,
          List.foldl_cons, List.foldl_nil, if_neg hf]
        simpa [occurrences, List.filterMap, hf] using ih

/-- The scanned `TargetUserName` local holds the last occurrence of
that field in document order. -/
theorem extractFields_target_username (data : List DataField) :
    (extractFields data).target_username = (occurrences "TargetUserName" data).getLast? := by
  have h := foldl_updateField (fun e => e.target_username) "TargetUserName"
    (by intro acc f; unfold updateField; split_ifs <;> rfl) data ⟨none, none, none, none⟩
  rw [extractFields, h, foldl_lastValue]
  cases (occurrences "TargetUserName" data).getLast? <;> rfl

/-- The scanned `TargetDomainName` local holds the last occurrence of
that field in document order. -/
theorem extractFields_target_domain (data : List DataField) :
    (extractFields data).target_domain = (occurrences "TargetDomainName" data).getLast? := by
  have h := foldl_updateField (fun e => e.target_domain) "TargetDomainName"
    (by intro acc f; unfold updateField; split_ifs <;> first | rfl | (exfalso; simp_all)) data ⟨none, none, none, none⟩
  rw [extractFields, h, foldl_lastValue]
  cases (occurrences "TargetDomainName" data).getLast? <;> rfl

/-- The scanned `LogonType` local holds the last occurrence of that
field in document order. -/
theorem extractFields_logon_type (data : List DataField) :
    (extractFields data).logon_type = (occurrences "LogonType" data).getLast? := by
  have h := foldl_updateField (fun e => e.logon_type) "LogonType"
    (by intro acc f; unfold updateField; split_ifs <;> first | rfl | (exfalso; simp_all)) data ⟨none, none, none, none⟩
  rw [extractFields, h, foldl_lastValue]
  cases (occurrences "LogonType" data).getLast? <;> rfl

/-- The scanned `IpAddress` local holds the last occurrence of that
field in document order. -/
theorem extractFields_ip_address (data : List DataField) :
    (extractFields data).ip_address = (occurrences "IpAddress" data).getLast? := by
  have h := foldl_updateField (fun e => e.ip_address) "IpAddress"
    (by intro acc f; unfold updateField; split_ifs <;> first | rfl | (exfalso; simp_all)) data ⟨none, none, none, none⟩
  rw [extractFields, h, foldl_lastValue]
  cases (occurrences "IpAddress" data).getLast? <;> rfl

/-- The batch loop pushes, in order, exactly the events of the records
that normalize, skipping the records that fail. -/
theorem pushEvents_eq (decode : String → Option SecurityEvent)
    (pts : String → Option Int) (xmls : List String) (acc : List Event) :
    pushEvents decode pts xmls acc = acc ++ xmls.filterMap (normalizeOk decode pts) := by
  induction xmls generalizing acc with
  | nil => simp [pushEvents]
  | cons xml rest ih =>
      cases h : parse_login_event decode pts xml with
      | error e => simp [pushEvents, h, normalizeOk, ih]
      | ok p =>
          obtain ⟨ts, le⟩ := p
          simp [pushEvents, h, normalizeOk, ih]

/-- C1: the variant classification is total and exhaustive.  For every
string `s`, `LogonVariant.from_string s` is a single well-defined
variant; when `s` parses as a machine integer in the known code set it
is the corresponding named variant, when it parses to any other integer
it is `Unknown` of that integer, and when it does not parse it is
`Invalid s`. -/
theorem variant_classification_total (s : String) :
    (parseIsize s = none → LogonVariant.from_string s = LogonVariant.Invalid s) ∧
    (∀ n : Int, parseIsize s = some n →
      (n = 2 → LogonVariant.from_string s = LogonVariant.Interactive) ∧
      (n = 3 → LogonVariant.from_string s = LogonVariant.Network) ∧
      (n = 4 → LogonVariant.from_string s = LogonVariant.Batch) ∧
      (n = 5 → LogonVariant.from_string s = LogonVariant.Service) ∧
      (n = 7 → LogonVariant.from_string s = LogonVariant.Unlock) ∧
      (n = 8 → LogonVariant.from_string s = LogonVariant.NetworkCleartext) ∧
      (n = 9 → LogonVariant.from_string s = LogonVariant.NewCredentials) ∧
      (n = 10 → LogonVariant.from_string s = LogonVariant.RemoteInteractive) ∧
      (n = 11 → LogonVariant.from_string s = LogonVariant.CachedInteractive) ∧
      (n = 12 → LogonVariant.from_string s = LogonVariant.CachedRemoteInteractive) ∧
      (n = 13 → LogonVariant.from_string s = LogonVariant.CachedUnlock) ∧
      (n ∉ knownLogonCodes → LogonVariant.from_string s = LogonVariant.Unknown n)) := by
  constructor
  · intro h
    simp [LogonVariant.from_string, h]
  · intro n h
    have hfs : LogonVariant.from_string s = LogonVariant.ofCode n := by
      simp [LogonVariant.from_string, h]
    rw [hfs]
    exact ⟨fun hn => by subst hn; decide,
      fun hn => by subst hn; decide,
      fun hn => by subst hn; decide,
      fun hn => by subst hn; decide,
      fun hn => by subst hn; decide,
      fun hn => by subst hn; decide,
      fun hn => by subst hn; decide,
      fun hn => by subst hn; decide,
      fun hn => by subst hn; decide,
      fun hn => by subst hn; decide,
      fun hn => by subst hn; decide,
      fun hn => ofCode_unknown n hn⟩

/-- Witness for C1: the classification evaluated at a known code, an
unknown numeric code and a non-numeric string. -/
theorem variant_classification_total_witness :
    LogonVariant.from_string "10" = LogonVariant.RemoteInteractive ∧
    LogonVariant.from_string "99" = LogonVariant.Unknown 99 ∧
    LogonVariant.from_string "abc" = LogonVariant.Invalid "abc" := by
  refine ⟨?_, ?_, ?_⟩
  · exact (((variant_classification_total "10").2 10 (by decide)).2.2.2.2.2.2.2.1) rfl
  · exact (((variant_classification_total "99").2 99 (by decide)).2.2.2.2.2.2.2.2.2.2.2) (by decide)
  · exact (variant_classification_total "abc").1 (by decide)

/-- C9: round trip between parsing and the numeric projection.  For a
string parsing to the integer `n`, `from_string` followed by
`as_number` gives back `n`; for a non-numeric string the projection is
`-1`, the same number `as_number` assigns to `Unknown (-1)`, so the
projection does not distinguish the two. -/
theorem as_number_roundtrip (s : String) :
    (∀ n : Int, parseIsize s = some n →
      (LogonVariant.from_string s).as_number = n) ∧
    (parseIsize s = none →
      (LogonVariant.from_string s).as_number = -1 ∧
      (LogonVariant.from_string s).as_number = (LogonVariant.Unknown (-1)).as_number) := by
  constructor
  · intro n h
    have hfs : LogonVariant.from_string s = LogonVariant.ofCode n := by
      simp [LogonVariant.from_string, h]
    rw [hfs, ofCode_as_number]
  · intro h
    have hfs : LogonVariant.from_string s = LogonVariant.Invalid s := by
      simp [LogonVariant.from_string, h]
    rw [hfs]
    exact ⟨rfl, rfl⟩

/-- Witness for C9: the round trip evaluated at a numeric and at a
non-numeric string. -/
theorem as_number_roundtrip_witness :
    (LogonVariant.from_string "7").as_number = 7 ∧
    (LogonVariant.from_string "zzz").as_number = -1 :=
  ⟨(as_number_roundtrip "7").1 7 (by decide),
    ((as_number_roundtrip "zzz").2 (by decide)).1⟩

/-- C8: normalization is deterministic and side-effect free.  The
embedding of `parse_login_event` is a pure function of the record text
(and of the two injected parsers); two evaluations on the same input
yield the same result, with no dependence on external state. -/
theorem normalization_deterministic (decode : String → Option SecurityEvent)
    (pts : String → Option Int) (xml : String) :
    parse_login_event decode pts xml = parse_login_event decode pts xml := rfl

/-- C6: malformed input is rejected with the classified XML error, and
normalization is total.  Whenever the deserializer cannot decode the
input string into the expected event schema, `parse_login_event`
returns the XML parse error; and on every input the result is either a
normalized event or a classified error — there is no third outcome. -/
theorem malformed_input_rejected (decode : String → Option SecurityEvent)
    (pts : String → Option Int) (xml : String) :
    (decode xml = none →
      parse_login_event decode pts xml = Except.error ParseError.xml) ∧
    ((∃ v, parse_login_event decode pts xml = Except.ok v) ∨
      (∃ e, parse_login_event decode pts xml = Except.error e)) := by
  constructor
  · intro h
    simp [parse_login_event, h]
  · cases h : parse_login_event decode pts xml with
    | ok v => exact Or.inl ⟨v, rfl⟩
    | error e => exact Or.inr ⟨e, rfl⟩

/-- Witness for C6: a deserializer rejecting the input makes
`parse_login_event` return the XML error on a concrete string. -/
theorem malformed_input_rejected_witness :
    parse_login_event (fun _ => none) (fun _ => some 0) "<Invalid> XML </Invalid>" =
      Except.error ParseError.xml :=
  (malformed_input_rejected (fun _ => none) (fun _ => some 0)
    "<Invalid> XML </Invalid>").1 rfl

/-- C3: batch processing is skip-and-continue and order-preserving.
For every batch of raw records returned by one query call, `get_events`
returns `Ok` of exactly the events of the records that normalized, in
the order the raw records were returned; a failing record is skipped
without failing the batch or discarding any later record. -/
theorem batch_skip_and_continue (decode : String → Option SecurityEvent)
    (pts : String → Option Int) (xmls : List String) :
    get_events decode pts (Except.ok xmls) =
      Except.ok (xmls.filterMap (normalizeOk decode pts)) := by
  simp [get_events, pushEvents_eq]

/-- A record whose creation time parses normalizes to the parsed
instant and to the event assembled from the scanned fields. -/
theorem parse_record_ok (pts : String → Option Int) (ev : SecurityEvent) (t : Int)
    (ht : pts ev.system.time_created.system_time = some t) :
    parse_record pts ev = Except.ok (t,
      { username := deriveUsername (extractFields ev.event_data.data).target_username
          (extractFields ev.event_data.data).target_domain
        source_ip := (extractFields ev.event_data.data).ip_address.getD "N/A"
        variant := variantFrom (extractFields ev.event_data.data).logon_type
        event_record_id := ev.system.event_record_id }) := by
  simp [parse_record, ht]

/-- C2: username derivation.  For every record whose creation time
parses: with both user and domain present and the domain neither empty
nor the sentinel `"-"`, the username is `user@domain`; with a user but
an absent, empty or sentinel domain, the bare user; with no user at
all, the placeholder `"Unknown"` — and normalization still succeeds in
every case. -/
theorem username_derivation (pts : String → Option Int) (ev : SecurityEvent) (t : Int)
    (ht : pts ev.system.time_created.system_time = some t) :
    (∀ user domain,
      (extractFields ev.event_data.data).target_username = some user →
      (extractFields ev.event_data.data).target_domain = some domain →
      domain ≠ "" → domain ≠ "-" →
      okUsername (parse_record pts ev) = some (user ++ "@" ++ domain)) ∧
    (∀ user,
      (extractFields ev.event_data.data).target_username = some user →
      ((extractFields ev.event_data.data).target_domain = none ∨
        (extractFields ev.event_data.data).target_domain = some "" ∨
        (extractFields ev.event_data.data).target_domain = some "-") →
      okUsername (parse_record pts ev) = some user) ∧
    ((extractFields ev.event_data.data).target_username = none →
      okUsername (parse_record pts ev) = some "Unknown") := by
  rw [parse_record_ok pts ev t ht]
  refine ⟨?_, ?_, ?_⟩
  · intro user domain hu hd h1 h2
    simp [okUsername, okEvent, hu, hd, deriveUsername, h1, h2]
  · intro user hu hcase
    rcases hcase with hd | hd | hd <;>
      simp [okUsername, okEvent, hu, hd, deriveUsername]
  · intro hu
    cases hd : (extractFields ev.event_data.data).target_domain <;>
      simp [okUsername, okEvent, hu, hd, deriveUsername]

/-- Witness for C2: the user and domain of the repository's test record
combine into `SYSTEM@NT AUTHORITY`. -/
theorem username_derivation_witness :
    okUsername (parse_record ptsLit recordUserAndDomain) = some "SYSTEM@NT AUTHORITY" :=
  (username_derivation ptsLit recordUserAndDomain litInstant (by decide)).1
    "SYSTEM" "NT AUTHORITY" (by decide) (by decide) (by decide) (by decide)

/-- C4: missing-field tolerance.  A record whose creation time parses
and whose scan found a user but no domain, logon type or ip address
normalizes successfully to the bare username, the `"N/A"` source ip and
the `Invalid "N/A"` variant. -/
theorem missing_field_tolerance (pts : String → Option Int) (ev : SecurityEvent)
    (t : Int) (user : String)
    (ht : pts ev.system.time_created.system_time = some t)
    (hu : (extractFields ev.event_data.data).target_username = some user)
    (hd : (extractFields ev.event_data.data).target_domain = none)
    (hl : (extractFields ev.event_data.data).logon_type = none)
    (hip : (extractFields ev.event_data.data).ip_address = none) :
    parse_record pts ev = Except.ok (t,
      { username := user, source_ip := "N/A",
        variant := LogonVariant.Invalid "N/A",
        event_record_id := ev.system.event_record_id }) := by
  rw [parse_record_ok pts ev t ht, hu, hd, hl, hip]
  rfl

/-- Witness for C4: the record holding only `TargetUserName` from the
repository's missing-data test. -/
theorem missing_field_tolerance_witness :
    parse_record ptsLit recordUserOnly = Except.ok (litInstant,
      { username := "TESTUSER", source_ip := "N/A",
        variant := LogonVariant.Invalid "N/A", event_record_id := 1 }) :=
  missing_field_tolerance ptsLit recordUserOnly litInstant "TESTUSER"
    (by decide) (by decide) (by decide) (by decide) (by decide)

/-- C5: timestamp fidelity.  When the creation-time string parses to an
instant, the normalized record carries exactly that instant — the round
trip is exact; when the creation-time string does not parse in the
fixed format, normalization of the record fails with the timestamp
parse failure. -/
theorem timestamp_fidelity (pts : String → Option Int) (ev : SecurityEvent) :
    (∀ t : Int, pts ev.system.time_created.system_time = some t →
      okTime (parse_record pts ev) = some t) ∧
    (pts ev.system.time_created.system_time = none →
      parse_record pts ev = Except.error ParseError.timestamp) := by
  constructor
  · intro t ht
    rw [parse_record_ok pts ev t ht]
    rfl
  · intro h
    simp [parse_record, h]

/-- Witness for C5: the test literal round-trips to its exact instant,
and a non-parsing creation time fails with the timestamp error. -/
theorem timestamp_fidelity_witness :
    okTime (parse_record ptsLit recordUserOnly) = some litInstant ∧
    parse_record (fun _ => none) recordUserOnly = Except.error ParseError.timestamp := by
  constructor
  · exact (timestamp_fidelity ptsLit recordUserOnly).1 litInstant (by decide)
  · exact (timestamp_fidelity (fun _ => none) recordUserOnly).2 rfl

/-- C7: source-ip handling.  For every record whose creation time
parses, a present `IpAddress` field is passed through verbatim (its
last occurrence in document order, with no validation or rewriting,
sentinels included), and an absent one yields the placeholder
`"N/A"`. -/
theorem source_ip_passthrough (pts : String → Option Int) (ev : SecurityEvent) (t : Int)
    (ht : pts ev.system.time_created.system_time = some t) :
    (∀ v, (occurrences "IpAddress" ev.event_data.data).getLast? = some v →
      okSourceIp (parse_record pts ev) = some v) ∧
    ((occurrences "IpAddress" ev.event_data.data).getLast? = none →
      okSourceIp (parse_record pts ev) = some "N/A") := by
  rw [parse_record_ok pts ev t ht]
  constructor
  · intro v hv
    have hip := extractFields_ip_address ev.event_data.data
    rw [hv] at hip
    simp [okSourceIp, okEvent, hip]
  · intro hnone
    have hip := extractFields_ip_address ev.event_data.data
    rw [hnone] at hip
    simp [okSourceIp, okEvent, hip]

/-- Witness for C7: the sentinel ip value `"-"` of the test record is
passed through unchanged. -/
theorem source_ip_passthrough_witness :
    okSourceIp (parse_record ptsLit recordIpSentinel) = some "-" :=
  (source_ip_passthrough ptsLit recordIpSentinel litInstant (by decide)).1
    "-" (by decide)

/-- C10: duplicate-field resolution.  For each of the four fields of
interest, the scan of the event data retains the value of the last
occurrence of that field name in document order — each later occurrence
overwrites the earlier one. -/
theorem duplicate_field_last_wins (data : List DataField) :
    (extractFields data).target_username = (occurrences "TargetUserName" data).getLast? ∧
    (extractFields data).target_domain = (occurrences "TargetDomainName" data).getLast? ∧
    (extractFields data).logon_type = (occurrences "LogonType" data).getLast? ∧
    (extractFields data).ip_address = (occurrences "IpAddress" data).getLast? :=
  ⟨extractFields_target_username data, extractFields_target_domain data,
    extractFields_logon_type data, extractFields_ip_address data⟩
